import Mathlib

/-!
Verification of the NeuroZK-Trader feature/label builder and backtest engine.

The development shallowly embeds `ai/core.py` (FeatureBuilder.build_from_candles,
_bar_to_steps) and `ai/backtest.py` (_bar_to_minutes, _annualization_factor,
_signals_from_probs, _trade_stats_from_series, run_backtest).  Prices, returns
and probabilities are modelled as exact rationals; the standard deviation and
the annualization factor, which take a real square root, live in `ℝ`.
Pandas/NumPy series are modelled as Lean lists indexed positionally; a cell
that pandas would hold as NaN inside an intermediate column is an `Option ℚ`
with `none` for NaN, and each `fillna` of the source is translated explicitly.
-/

namespace NeuroZK

/-- One OHLCV candle row.  The `open` price field is called `op` because
`open` is a Lean keyword; `ts` is the bar timestamp. -/
structure Candle where
  ts : Nat
  op : ℚ
  high : ℚ
  low : ℚ
  close : ℚ
  vol : ℚ
deriving Repr, DecidableEq

/-- `df["close"].astype(float)` as a list of rationals. -/
def closes (candles : List Candle) : List ℚ :=
  candles.map (·.close)

/-- `df["vol"].astype(float).fillna(0)`: candle volumes are exact here, so the
`fillna` is the identity. -/
def vols (candles : List Candle) : List ℚ :=
  candles.map (·.vol)

/-- The `1e-9` guard added to denominators in the feature columns. -/
def eps9 : ℚ := 1 / 10 ^ 9

/-- `close.pct_change(k).fillna(0)`: `close[t]/close[t-k] - 1` for `t ≥ k`,
and the leading NaNs are filled with `0`. -/
def ret_col (cl : List ℚ) (k : Nat) : List ℚ :=
  (List.range cl.length).map fun t =>
    if k ≤ t then cl.getD t 0 / cl.getD (t - k) 0 - 1 else 0

/-- `series.rolling(w).mean()`: the mean of the window `[t-w+1, t]` once `t ≥ w-1`,
`none` (NaN) before that. -/
def roll_mean (l : List ℚ) (w : Nat) : List (Option ℚ) :=
  (List.range l.length).map fun t =>
    if w - 1 ≤ t then some (((l.drop (t + 1 - w)).take w).sum / (w : ℚ)) else none

/-- `series.fillna(method="bfill")`: each NaN cell takes the first non-NaN value
at its own index or later; trailing NaNs (no later valid value) stay NaN. -/
def bfill (l : List (Option ℚ)) : List (Option ℚ) :=
  (List.range l.length).map fun t => (l.drop t).findSome? id

/-- `feat["ma_5"] = close.rolling(5).mean().fillna(method="bfill")`. -/
def ma_5_col (cl : List ℚ) : List (Option ℚ) :=
  bfill (roll_mean cl 5)

/-- `feat["ma_10"] = close.rolling(10).mean().fillna(method="bfill")`. -/
def ma_10_col (cl : List ℚ) : List (Option ℚ) :=
  bfill (roll_mean cl 10)

/-- `feat["ma_ratio"] = (ma_5 / (ma_10 + 1e-9) - 1).fillna(0)`: NaN in either
operand makes the expression NaN, which the final `fillna` sends to `0`. -/
def ma_ratio_col (cl : List ℚ) : List ℚ :=
  (List.range cl.length).map fun t =>
    match (ma_5_col cl).getD t none, (ma_10_col cl).getD t none with
    | some a, some b => a / (b + eps9) - 1
    | _, _ => 0

/-- `feat["vol_ma_10"] = vol.rolling(10).mean().fillna(method="bfill")`. -/
def vol_ma_10_col (vs : List ℚ) : List (Option ℚ) :=
  bfill (roll_mean vs 10)

/-- `feat["vol_ratio"] = (vol / (vol_ma_10 + 1e-9)).fillna(0)`. -/
def vol_ratio_col (vs : List ℚ) : List ℚ :=
  (List.range vs.length).map fun t =>
    match (vol_ma_10_col vs).getD t none with
    | some m => vs.getD t 0 / (m + eps9)
    | none => 0

/-- `feat["hl_range"] = (high - low) / (close + 1e-9)`. -/
def hl_range_col (candles : List Candle) : List ℚ :=
  candles.map fun c => (c.high - c.low) / (c.close + eps9)

/-- One row of the feature matrix built by `FeatureBuilder.build_from_candles`.
The moving-average columns can hold NaN (when the series is too short for any
window to complete, `bfill` finds nothing), hence `Option ℚ`. -/
structure FeatRow where
  ret_1 : ℚ
  ret_3 : ℚ
  ret_5 : ℚ
  ma_5 : Option ℚ
  ma_10 : Option ℚ
  ma_ratio : ℚ
  vol : ℚ
  vol_ma_10 : Option ℚ
  vol_ratio : ℚ
  hl_range : ℚ
deriving Repr, DecidableEq

/-- Row `t` of the feature matrix `feat`. -/
def featRowAt (candles : List Candle) (t : Nat) : FeatRow :=
  let cl := closes candles
  let vs := vols candles
  { ret_1 := (ret_col cl 1).getD t 0
    ret_3 := (ret_col cl 3).getD t 0
    ret_5 := (ret_col cl 5).getD t 0
    ma_5 := (ma_5_col cl).getD t none
    ma_10 := (ma_10_col cl).getD t none
    ma_ratio := (ma_ratio_col cl).getD t 0
    vol := vs.getD t 0
    vol_ma_10 := (vol_ma_10_col vs).getD t none
    vol_ratio := (vol_ratio_col vs).getD t 0
    hl_range := (hl_range_col candles).getD t 0 }

/-- `y = ((future / close) - 1.0).fillna(0.0)` where `future = close.shift(-h)`:
looks `h` rows ahead; rows whose forward close does not exist get `0`. -/
def future_ret (cl : List ℚ) (h : Nat) : List ℚ :=
  (List.range cl.length).map fun t =>
    match cl[t + h]? with
    | some f => f / cl.getD t 0 - 1
    | none => 0

/-- `y_cls = (y >= 0.0).astype(int)`, with `true` standing for the label `1`. -/
def y_cls (cl : List ℚ) (h : Nat) : List Bool :=
  (future_ret cl h).map fun q => decide (0 ≤ q)

/-- `valid_idx = ~future.isna()`: the row indices whose forward close exists. -/
def valid_idx (cl : List ℚ) (h : Nat) : List Nat :=
  (List.range cl.length).filter fun t => (cl[t + h]?).isSome

/-- `FeatureBuilder.build_from_candles`: the feature matrix and the label series,
both restricted to `valid_idx` and carrying their original row index (pandas
boolean selection keeps index labels). -/
def build_from_candles (candles : List Candle) (horizon_steps : Nat) :
    List (Nat × FeatRow) × List (Nat × Bool) :=
  let cl := closes candles
  ((valid_idx cl horizon_steps).map fun t => (t, featRowAt candles t),
   (valid_idx cl horizon_steps).map fun t => (t, (y_cls cl horizon_steps).getD t false))

/-!
### `_bar_to_steps` (ai/core.py) and `_bar_to_minutes` (ai/backtest.py)

Both parse a bar string such as `"1m"`, `"1H"`, `"1D"`: the unit is the
lower-cased last character and the value is `int(bar[:-1])` with fallback `1`
when that parse raises.  `//` in Python is floor division, `Int.fdiv` here.
-/

/-- A digit string to its numeric value, `none` when empty or non-digit. -/
def digitsToNat (cs : List Char) : Option Nat :=
  if cs = [] then none
  else if cs.all (·.isDigit) then
    some (cs.foldl (fun a c => 10 * a + (c.toNat - 48)) 0)
  else none

/-- Python `int(s)` on a plain integer literal: an optional sign followed by
digits; `none` models the `ValueError` that the source catches.  (Python also
tolerates surrounding whitespace and underscores; the bar strings at play
never carry those.) -/
def pyInt (s : String) : Option Int :=
  match s.data with
  | '-' :: rest => (digitsToNat rest).map fun n => -(n : Int)
  | '+' :: rest => (digitsToNat rest).map fun n => (n : Int)
  | l => (digitsToNat l).map fun n => (n : Int)

/-- `_bar_to_steps(bar, horizon_min)` of ai/core.py.  Note the `else` branch:
any unit other than `m`/`h` — `d` included — yields `max(1, horizon_min)`. -/
def bar_to_steps (bar : String) (horizon_min : Int) : Int :=
  let unit := bar.back.toLower
  let val := (pyInt (bar.dropRight 1)).getD 1
  if unit = 'm' then max 1 (horizon_min.fdiv val)
  else if unit = 'h' then max 1 ((horizon_min.fdiv 60).fdiv (max 1 val))
  else max 1 horizon_min

/-- Python `str.strip()`: drop leading and trailing whitespace. -/
def pyStrip (s : String) : String :=
  ⟨((s.data.dropWhile (·.isWhitespace)).reverse.dropWhile (·.isWhitespace)).reverse⟩

/-- `_bar_to_minutes(bar)` of ai/backtest.py (this one strips the string). -/
def bar_to_minutes (bar : String) : Int :=
  let b := pyStrip bar
  let unit := b.back.toLower
  let val := (pyInt (b.dropRight 1)).getD 1
  if unit = 'm' then max 1 val
  else if unit = 'h' then max 1 (60 * val)
  else if unit = 'd' then max 1 (60 * 24 * val)
  else 1

/-!
### Signal, cost and performance engine (ai/backtest.py)
-/

/-- `_signals_from_probs`: start from zeros, set `1` where `probs > thr_long`,
then set `-1` where `probs < thr_short` (the later mask wins on overlap). -/
def signals_from_probs (probs : List ℚ) (thr_long thr_short : ℚ) : List Int :=
  probs.map fun p =>
    let s : Int := if thr_long < p then 1 else 0
    if p < thr_short then -1 else s

/-- The value of `np.roll(sig, 1)` after the assignment `sig_shift[0] = 0`,
for a nonempty signal array: the wrapped-around last element is overwritten,
leaving `0` followed by all but the last signal.  On a size-0 array the
source's element assignment raises `IndexError` instead of producing any
value; `sig_shift_checked` below models that error path and `run_backtest`
goes through it, so the `[] => []` clause here is never read by the backtest
— it only keeps this helper total for the per-index lemmas, all of which
quantify over in-bounds positions of nonempty signals. -/
def sig_shift (sig : List Int) : List Int :=
  match sig with
  | [] => []
  | _ => 0 :: sig.dropLast

/-- `sig_shift = np.roll(sig, 1); sig_shift[0] = 0` with its error path:
`np.roll` on a size-0 array returns a size-0 array, and the write
`sig_shift[0] = 0` (line 130 of ai/backtest.py) then raises
`IndexError: index 0 is out of bounds for axis 0 with size 0`,
modelled as `none`. -/
def sig_shift_checked (sig : List Int) : Option (List Int) :=
  match sig with
  | [] => none
  | _ => some (0 :: sig.dropLast)

/-- `turnover = np.abs(sig - sig_shift)`, kept as rationals for the cost term. -/
def turnover (sig : List Int) : List ℚ :=
  List.zipWith (fun s sp => ((|s - sp| : ℤ) : ℚ)) sig (sig_shift sig)

/-- `strat_ret = sig_shift * ret` (the gross per-period strategy return). -/
def gross_ret (sig : List Int) (ret : List ℚ) : List ℚ :=
  List.zipWith (fun (sp : Int) (r : ℚ) => (sp : ℚ) * r) (sig_shift sig) ret

/-- `cost_bps = (fee_bps + slip_bps) / 10_000.0`. -/
def cost_bps (fee_bps slip_bps : ℚ) : ℚ :=
  (fee_bps + slip_bps) / 10000

/-- `turnover * cost_bps`, the per-period transaction cost series. -/
def cost_series (sig : List Int) (fee_bps slip_bps : ℚ) : List ℚ :=
  (turnover sig).map fun tv => tv * cost_bps fee_bps slip_bps

/-- `strat_ret -= turnover * cost_bps`: the net per-period strategy return. -/
def net_ret (sig : List Int) (ret : List ℚ) (fee_bps slip_bps : ℚ) : List ℚ :=
  List.zipWith (fun g c => g - c) (gross_ret sig ret) (cost_series sig fee_bps slip_bps)

/-- `np.cumprod`: running products of the list. -/
def cumprod (l : List ℚ) : List ℚ :=
  (l.scanl (· * ·) 1).tail

/-- `equity = initial * np.cumprod(1.0 + strat_ret)`. -/
def equity_curve (initial : ℚ) (strat_ret : List ℚ) : List ℚ :=
  (cumprod (strat_ret.map fun r => 1 + r)).map fun p => initial * p

/-- `pos.shift(1).fillna(0)` read at index `t`. -/
def prev_pos (pos : List Int) (t : Nat) : Int :=
  if t = 0 then 0 else pos.getD (t - 1) 0

/-- `pos.shift(-1).fillna(0)` read at index `t`. -/
def next_pos (pos : List Int) (t : Nat) : Int :=
  pos.getD (t + 1) 0

/-- `starts = (pos.shift(1).fillna(0) == 0) & (pos != 0)` as an index list. -/
def trade_starts (pos : List Int) : List Nat :=
  (List.range pos.length).filter fun t =>
    decide (prev_pos pos t = 0 ∧ pos.getD t 0 ≠ 0)

/-- `ends = (pos != 0) & (pos.shift(-1).fillna(0) == 0)` as an index list. -/
def trade_ends (pos : List Int) : List Nat :=
  (List.range pos.length).filter fun t =>
    decide (pos.getD t 0 ≠ 0 ∧ next_pos pos t = 0)

/-- `n = min(len(start_idx), len(end_idx))`: the reported trade count. -/
def trade_count (pos : List Int) : Nat :=
  min (trade_starts pos).length (trade_ends pos).length

/-- The wins loop: count `i < n` with `equity[end_idx[i]] > equity[start_idx[i]]`. -/
def trade_wins (equity : List ℚ) (pos : List Int) : Nat :=
  (List.range (trade_count pos)).countP fun i =>
    decide (equity.getD ((trade_starts pos).getD i 0) 0 <
      equity.getD ((trade_ends pos).getD i 0) 0)

/-- `win_rate = 100.0 * wins / (n if n > 0 else 1)`. -/
def win_rate (equity : List ℚ) (pos : List Int) : ℚ :=
  100 * (trade_wins equity pos : ℚ) /
    (if 0 < trade_count pos then (trade_count pos : ℚ) else 1)

/-- `_trade_stats_from_series`: the `(trades, win_rate)` pair. -/
def trade_stats_from_series (equity : List ℚ) (pos : List Int) : Nat × ℚ :=
  (trade_count pos, win_rate equity pos)

/-!
### Sharpe ratio

`np.mean` and the variance under `np.std` stay rational; the square root of
the variance and of `periods_per_year` are real.
-/

/-- `np.mean`: sum over length (`0` on the empty list, where NumPy emits NaN
but the guarded Sharpe below reports `0` either way). -/
def list_mean (l : List ℚ) : ℚ :=
  l.sum / (l.length : ℚ)

/-- The population variance under `np.std`: mean squared deviation. -/
def list_var (l : List ℚ) : ℚ :=
  ((l.map fun x => (x - list_mean l) ^ 2).sum) / (l.length : ℚ)

/-- `np.std`: the real square root of the variance. -/
noncomputable def np_std (l : List ℚ) : ℝ :=
  Real.sqrt ((list_var l : ℚ) : ℝ)

/-- The `1e-12` guard added to the standard deviation. -/
noncomputable def eps12 : ℝ := 1 / 10 ^ 12

/-- `periods_per_year = (365 * 24 * 60) / mins`. -/
def periods_per_year (bar : String) : ℚ :=
  (365 * 24 * 60 : ℚ) / ((bar_to_minutes bar : ℤ) : ℚ)

/-- `_annualization_factor(bar) = sqrt(periods_per_year)`. -/
noncomputable def annualization_factor (bar : String) : ℝ :=
  Real.sqrt ((periods_per_year bar : ℚ) : ℝ)

/-- Lines 144-147 of ai/backtest.py: `mean_r = mean(strat_ret)`;
`std_r = std(strat_ret) + 1e-12`;
`sharpe = (mean_r / std_r) * ann_factor if std_r > 0 else 0.0`. -/
noncomputable def sharpe_of (strat_ret : List ℚ) (bar : String) : ℝ :=
  if 0 < np_std strat_ret + eps12 then
    (((list_mean strat_ret : ℚ) : ℝ) / (np_std strat_ret + eps12)) * annualization_factor bar
  else 0

/-!
### `run_backtest`

The classifier is an external collaborator: `run_backtest` here takes the
probability series it would produce (one value per feature row) as an input.
-/

/-- The configuration fields of `BacktestConfig` that the core engine reads
(`inst`, `limit` and `plot_out` only steer I/O). -/
structure BacktestConfig where
  bar : String := "1m"
  horizon : Int := 5
  thr_long : ℚ := 55 / 100
  thr_short : ℚ := 45 / 100
  initial : ℚ := 10000
  fee_bps : ℚ := 5
  slip_bps : ℚ := 2

/-- `prices.pct_change().reindex(X.index).fillna(0.0)`: close-to-close returns
of the full candle series, read back at the feature-row indices; the NaN of
row `0` becomes `0`. -/
def ret_series (candles : List Candle) (idx : List Nat) : List ℚ :=
  let cl := closes candles
  idx.map fun t => if t = 0 then 0 else cl.getD t 0 / cl.getD (t - 1) 0 - 1

/-- The record `run_backtest` returns (minus the pandas objects' indices). -/
structure BTResult where
  samples : Nat
  trades : Nat
  sharpe : ℝ
  win_rate_pct : ℚ
  final_equity : ℚ
  equity : List ℚ
  positions : List Int

/-- `run_backtest(df, model, cfg)` with the model's probability output passed
in as `probs` (in the source `probs` has exactly one entry per row of `X`).
The `sig_shift[0] = 0` write is the first fallible step of the engine: on a
size-0 signal array it raises, so the whole run produces `none`; past that
guard the signal is nonempty and `sig_shift sig` is exactly the checked
value, so the downstream series reuse it. -/
noncomputable def run_backtest (candles : List Candle) (probs : List ℚ)
    (cfg : BacktestConfig) : Option BTResult :=
  let steps := (bar_to_steps cfg.bar cfg.horizon).toNat
  let Xy := build_from_candles candles steps
  let ret := ret_series candles (Xy.1.map Prod.fst)
  let sig := signals_from_probs probs cfg.thr_long cfg.thr_short
  match sig_shift_checked sig with
  | none => none
  | some _ =>
    let strat_ret := net_ret sig ret cfg.fee_bps cfg.slip_bps
    let equity := equity_curve cfg.initial strat_ret
    let stats := trade_stats_from_series equity sig
    some { samples := Xy.1.length
           trades := stats.1
           sharpe := sharpe_of strat_ret cfg.bar
           win_rate_pct := stats.2
           final_equity := equity.getLastD cfg.initial
           equity := equity
           positions := sig }

/-!
### Helper lemmas on the embedded series
-/

lemma isSome_getElem_iff {α : Type _} (l : List α) (n : Nat) :
    (l[n]?).isSome = true ↔ n < l.length := by
  rw [Option.isSome_iff_exists]
  constructor
  · rintro ⟨a, ha⟩
    exact (List.getElem?_eq_some_iff.mp ha).1
  · intro hlt
    exact ⟨l[n], List.getElem?_eq_getElem hlt⟩

lemma getD_map {α β : Type _} (f : α → β) (l : List α) (t : Nat) (ht : t < l.length)
    (d1 : α) (d2 : β) : (l.map f).getD t d2 = f (l.getD t d1) := by
  rw [List.getD_eq_getElem?_getD, List.getElem?_map, List.getElem?_eq_getElem ht,
    List.getD_eq_getElem l d1 ht]
  rfl

lemma getD_range_map {β : Type _} (g : Nat → β) (n t : Nat) (ht : t < n) (d : β) :
    ((List.range n).map g).getD t d = g t := by
  rw [List.getD_eq_getElem?_getD, List.getElem?_map, List.getElem?_range ht]
  rfl

lemma getD_zipWith {α β γ : Type _} (f : α → β → γ) (l1 : List α) (l2 : List β) (t : Nat)
    (h1 : t < l1.length) (h2 : t < l2.length) (d1 : α) (d2 : β) (d3 : γ) :
    (List.zipWith f l1 l2).getD t d3 = f (l1.getD t d1) (l2.getD t d2) := by
  have hz : t < (List.zipWith f l1 l2).length := by
    rw [List.length_zipWith]; exact lt_min h1 h2
  rw [List.getD_eq_getElem _ _ hz, List.getD_eq_getElem _ _ h1, List.getD_eq_getElem _ _ h2]
  exact List.getElem_zipWith

lemma length_sig_shift (sig : List Int) : (sig_shift sig).length = sig.length := by
  cases sig with
  | nil => rfl
  | cons a l => simp [sig_shift]

lemma sig_shift_getD_zero (sig : List Int) : (sig_shift sig).getD 0 0 = 0 := by
  cases sig <;> rfl

lemma sig_shift_getD_succ (sig : List Int) (t : Nat) (h1 : 1 ≤ t) (h2 : t < sig.length) :
    (sig_shift sig).getD t 0 = sig.getD (t - 1) 0 := by
  obtain ⟨k, rfl⟩ : ∃ k, t = k + 1 := ⟨t - 1, (Nat.succ_pred_eq_of_pos h1).symm⟩
  cases sig with
  | nil => simp at h2
  | cons a l =>
    show (0 :: (a :: l).dropLast).getD (k + 1) 0 = (a :: l).getD k 0
    have hk : k < (a :: l).dropLast.length := by
      simp only [List.length_dropLast, List.length_cons] at h2 ⊢
      omega
    rw [List.getD_cons_succ, List.getD_eq_getElem _ _ hk, List.getElem_dropLast,
      List.getD_eq_getElem _ _ (by simp only [List.length_cons] at h2 ⊢; omega)]

lemma filter_range_lt_add (n h : Nat) :
    (List.range n).filter (fun t => decide (t + h < n)) = List.range (n - h) := by
  rcases Nat.le_total h n with hle | hge
  · obtain ⟨m, rfl⟩ : ∃ m, n = m + h := ⟨n - h, by omega⟩
    rw [List.range_add, List.filter_append]
    have hfst : List.filter (fun t => decide (t + h < m + h)) (List.range m) = List.range m :=
      List.filter_eq_self.mpr (by
        intro a ha
        rw [List.mem_range] at ha
        simp only [decide_eq_true_eq]
        omega)
    have hsnd : List.filter (fun t => decide (t + h < m + h))
        ((List.range h).map fun x => m + x) = [] :=
      List.filter_eq_nil_iff.mpr (by
        intro a ha
        obtain ⟨x, hx, rfl⟩ := List.mem_map.mp ha
        rw [List.mem_range] at hx
        simp only [decide_eq_true_eq]
        omega)
    rw [hfst, hsnd, List.append_nil]
    congr 1
    omega
  · have h0 : n - h = 0 := by omega
    rw [h0, List.range_zero]
    exact List.filter_eq_nil_iff.mpr (by
      intro a ha
      rw [List.mem_range] at ha
      simp only [decide_eq_true_eq]
      omega)

lemma valid_idx_eq_range (cl : List ℚ) (h : Nat) :
    valid_idx cl h = List.range (cl.length - h) := by
  unfold valid_idx
  have hcongr : ∀ t ∈ List.range cl.length,
      ((cl[t + h]?).isSome) = decide (t + h < cl.length) := by
    intro t _
    by_cases hth : t + h < cl.length
    · simp [List.getElem?_eq_getElem hth, hth]
    · rw [List.getElem?_eq_none_iff.mpr (by omega)]
      simp [hth]
  rw [List.filter_congr hcongr, filter_range_lt_add cl.length h]

lemma length_future_ret (cl : List ℚ) (h : Nat) : (future_ret cl h).length = cl.length := by
  unfold future_ret
  rw [List.length_map, List.length_range]

lemma future_ret_getD (cl : List ℚ) (h t : Nat) (ht : t < cl.length) :
    (future_ret cl h).getD t 0 =
      match cl[t + h]? with
      | some f => f / cl.getD t 0 - 1
      | none => 0 := by
  unfold future_ret
  exact getD_range_map _ _ _ ht _

lemma y_cls_getD (cl : List ℚ) (h t : Nat) (ht : t < cl.length) :
    (y_cls cl h).getD t false = decide (0 ≤ (future_ret cl h).getD t 0) := by
  unfold y_cls
  exact getD_map _ _ _ (by rw [length_future_ret]; exact ht) 0 false

lemma length_closes (candles : List Candle) : (closes candles).length = candles.length :=
  List.length_map _ _

lemma mem_build_labels_iff (c : List Candle) (h t : Nat) (b : Bool) :
    (t, b) ∈ (build_from_candles c h).2 ↔
      t + h < c.length ∧ b = (y_cls (closes c) h).getD t false := by
  show (t, b) ∈ (valid_idx (closes c) h).map _ ↔ _
  rw [valid_idx_eq_range, length_closes]
  constructor
  · intro hmem
    obtain ⟨a, ha, hab⟩ := List.mem_map.mp hmem
    rw [List.mem_range] at ha
    obtain ⟨rfl, rfl⟩ := Prod.mk.injEq .. ▸ hab
    exact ⟨by omega, rfl⟩
  · rintro ⟨hth, rfl⟩
    exact List.mem_map.mpr ⟨t, List.mem_range.mpr (by omega), rfl⟩

lemma length_turnover (sig : List Int) : (turnover sig).length = sig.length := by
  unfold turnover
  rw [List.length_zipWith, length_sig_shift, min_self]

lemma length_cost_series (sig : List Int) (fee slip : ℚ) :
    (cost_series sig fee slip).length = sig.length := by
  unfold cost_series
  rw [List.length_map, length_turnover]

lemma length_gross_ret (sig : List Int) (ret : List ℚ) :
    (gross_ret sig ret).length = min sig.length ret.length := by
  unfold gross_ret
  rw [List.length_zipWith, length_sig_shift]

lemma net_ret_getD (sig : List Int) (ret : List ℚ) (fee slip : ℚ) (t : Nat)
    (ht : t < sig.length) (hr : t < ret.length) :
    (net_ret sig ret fee slip).getD t 0 =
      (gross_ret sig ret).getD t 0 - (turnover sig).getD t 0 * cost_bps fee slip := by
  unfold net_ret
  rw [getD_zipWith _ _ _ t (by rw [length_gross_ret]; exact lt_min ht hr)
    (by rw [length_cost_series]; exact ht) 0 0 0]
  unfold cost_series
  rw [getD_map _ _ t (by rw [length_turnover]; exact ht) 0 0]

lemma turnover_getD_nonneg (sig : List Int) (t : Nat) : 0 ≤ (turnover sig).getD t 0 := by
  rcases lt_or_le t (turnover sig).length with hlt | hge
  · unfold turnover at hlt ⊢
    rw [List.length_zipWith, length_sig_shift, min_self] at hlt
    rw [getD_zipWith _ _ _ t hlt (by rw [length_sig_shift]; exact hlt) 0 0 0]
    positivity
  · rw [List.getD_eq_default _ _ hge]

/-!
### Claims about the signal, cost and trade-statistics engine
-/

/-- Claim C2: the realized position that multiplies the close-to-close return
in period `t` is `signal[t-1]` for every `t ≥ 1`, and in the very first period
it is `0` regardless of `signal[0]` (the rolled-around last element is
explicitly overwritten). -/
theorem execution_lag (sig : List Int) (ret : List ℚ) (t : Nat)
    (ht : t < sig.length) (hr : t < ret.length) :
    (gross_ret sig ret).getD t 0 = ((sig_shift sig).getD t 0 : ℚ) * ret.getD t 0
    ∧ (1 ≤ t → (sig_shift sig).getD t 0 = sig.getD (t - 1) 0)
    ∧ (sig_shift sig).getD 0 0 = 0 := by
  refine ⟨?_, fun h1 => sig_shift_getD_succ sig t h1 ht, sig_shift_getD_zero sig⟩
  unfold gross_ret
  rw [getD_zipWith _ _ _ t (by rw [length_sig_shift]; exact ht) hr 0 0 0]

/-- Witness for C2 at `sig = [1, -1]`, `ret = [1/2, 1/3]`, `t = 1`. -/
theorem execution_lag_witness :
    1 < ([1, -1] : List Int).length ∧ 1 < ([1/2, 1/3] : List ℚ).length ∧
      ((gross_ret [1, -1] [1/2, 1/3]).getD 1 0 =
          ((sig_shift [1, -1]).getD 1 0 : ℚ) * ([1/2, 1/3] : List ℚ).getD 1 0
        ∧ (1 ≤ 1 → (sig_shift [1, -1]).getD 1 0 = ([1, -1] : List Int).getD 0 0)
        ∧ (sig_shift [1, -1]).getD 0 0 = 0) :=
  ⟨by decide, by decide, execution_lag [1, -1] [1/2, 1/3] 1 (by decide) (by decide)⟩

/-- Claim C5: with the signal series fixed, raising `fee_bps` and
`slip_bps` (both nonnegative) never increases the net return of a period with
nonzero turnover, and leaves a zero-turnover period's net return unchanged. -/
theorem cost_monotone (sig : List Int) (ret : List ℚ) (fee1 slip1 fee2 slip2 : ℚ)
    (t : Nat) (hf0 : 0 ≤ fee1) (hs0 : 0 ≤ slip1) (hf : fee1 ≤ fee2) (hs : slip1 ≤ slip2)
    (ht : t < sig.length) (hr : t < ret.length) :
    ((turnover sig).getD t 0 = 0 →
      (net_ret sig ret fee2 slip2).getD t 0 = (net_ret sig ret fee1 slip1).getD t 0)
    ∧ ((turnover sig).getD t 0 ≠ 0 →
      (net_ret sig ret fee2 slip2).getD t 0 ≤ (net_ret sig ret fee1 slip1).getD t 0) := by
  rw [net_ret_getD sig ret fee2 slip2 t ht hr, net_ret_getD sig ret fee1 slip1 t ht hr]
  have hcb : cost_bps fee1 slip1 ≤ cost_bps fee2 slip2 := by
    unfold cost_bps
    linarith
  have htv : 0 ≤ (turnover sig).getD t 0 := turnover_getD_nonneg sig t
  constructor
  · intro h0
    rw [h0]
    ring
  · intro _
    have := mul_le_mul_of_nonneg_left hcb htv
    linarith

/-- Witness for C5 at `sig = [1, -1]`, `ret = [0, 1/10]`, fees `5 ≤ 6`,
slippage `2 ≤ 2`, period `t = 1` (turnover `2` there). -/
theorem cost_monotone_witness :
    (0 : ℚ) ≤ 5 ∧ (0 : ℚ) ≤ 2 ∧ (5 : ℚ) ≤ 6 ∧ (2 : ℚ) ≤ 2 ∧
      1 < ([1, -1] : List Int).length ∧ 1 < ([0, 1/10] : List ℚ).length ∧
      (((turnover [1, -1]).getD 1 0 = 0 →
        (net_ret [1, -1] [0, 1/10] 6 2).getD 1 0 = (net_ret [1, -1] [0, 1/10] 5 2).getD 1 0)
      ∧ ((turnover [1, -1]).getD 1 0 ≠ 0 →
        (net_ret [1, -1] [0, 1/10] 6 2).getD 1 0 ≤ (net_ret [1, -1] [0, 1/10] 5 2).getD 1 0)) :=
  ⟨by norm_num, by norm_num, by norm_num, by norm_num, by decide, by decide,
    cost_monotone [1, -1] [0, 1/10] 5 2 6 2 1 (by norm_num) (by norm_num) (by norm_num)
      (by norm_num) (by decide) (by decide)⟩

/-- Claim C9: every signal produced from a probability series is `-1`, `0`
or `+1`, whatever the two thresholds are (in particular when
`thr_short ≥ thr_long`). -/
theorem signals_in_range (probs : List ℚ) (thr_long thr_short : ℚ) (s : Int)
    (hs : s ∈ signals_from_probs probs thr_long thr_short) :
    s = -1 ∨ s = 0 ∨ s = 1 := by
  unfold signals_from_probs at hs
  obtain ⟨p, _, rfl⟩ := List.mem_map.mp hs
  dsimp only
  split_ifs <;> simp

/-- Witness for C9 with a misconfigured threshold pair `thr_short > thr_long`. -/
theorem signals_in_range_witness :
    ((-1 : Int) ∈ signals_from_probs [4/10] (3/10) (5/10)) ∧
      ((-1 : Int) = -1 ∨ (-1 : Int) = 0 ∨ (-1 : Int) = 1) :=
  ⟨by norm_num [signals_from_probs],
    signals_in_range [4/10] (3/10) (5/10) (-1) (by norm_num [signals_from_probs])⟩

/-- Claim C10: the wins counted by `_trade_stats_from_series` never exceed the
trade count it reports, and the reported win rate lies in `[0, 100]` — also
when the trade count is zero, where the denominator falls back to `1`. -/
theorem win_rate_bounds (equity : List ℚ) (pos : List Int) :
    trade_wins equity pos ≤ trade_count pos
    ∧ 0 ≤ (trade_stats_from_series equity pos).2
    ∧ (trade_stats_from_series equity pos).2 ≤ 100 := by
  have hwins : trade_wins equity pos ≤ trade_count pos := by
    unfold trade_wins
    calc (List.range (trade_count pos)).countP _ ≤ (List.range (trade_count pos)).length :=
          List.countP_le_length _
      _ = trade_count pos := List.length_range _
  refine ⟨hwins, ?_, ?_⟩ <;> show _
  · show (0 : ℚ) ≤ win_rate equity pos
    unfold win_rate
    split_ifs with hpos
    · positivity
    · positivity
  · show win_rate equity pos ≤ 100
    unfold win_rate
    split_ifs with hpos
    · rw [div_le_iff₀ (by exact_mod_cast hpos)]
      have : (trade_wins equity pos : ℚ) ≤ (trade_count pos : ℚ) := by exact_mod_cast hwins
      linarith
    · have h0 : trade_count pos = 0 := by omega
      have : trade_wins equity pos = 0 := by omega
      rw [this]
      norm_num

/-!
### Claim C7: transaction costs under a constant signal

Because `sig_shift[0]` is forced to `0`, a constant nonzero signal has
turnover `|c|` in period 0 and is charged one entry cost there; only the
all-flat constant signal is cost-free across the whole run.
-/

lemma sig_shift_replicate (n : Nat) (c : Int) (hn : 1 ≤ n) :
    sig_shift (List.replicate n c) = 0 :: List.replicate (n - 1) c := by
  obtain ⟨k, rfl⟩ : ∃ k, n = k + 1 := ⟨n - 1, by omega⟩
  rw [List.replicate_succ]
  show 0 :: (c :: List.replicate k c).dropLast = _
  rw [← List.replicate_succ, List.dropLast_replicate]

lemma turnover_replicate (n : Nat) (c : Int) (hn : 1 ≤ n) :
    turnover (List.replicate n c) = ((|c| : ℤ) : ℚ) :: List.replicate (n - 1) 0 := by
  obtain ⟨k, rfl⟩ : ∃ k, n = k + 1 := ⟨n - 1, by omega⟩
  unfold turnover
  rw [sig_shift_replicate _ _ (by omega)]
  show List.zipWith _ (c :: List.replicate k c) (0 :: List.replicate k c) = _
  rw [List.zipWith_cons_cons, List.zipWith_replicate, min_self]
  simp

/-- Counterexample to claim C7: the constant long signal `[1, 1]` with the
default fees (5 bps fee, 2 bps slippage) pays a nonzero total transaction
cost — the forced flat start makes period 0 a position-changing event. -/
theorem const_signal_cost_cex :
    (cost_series (List.replicate 2 1) 5 2).sum = 7 / 10000 ∧
      (7 / 10000 : ℚ) ≠ 0 := by
  constructor
  · rw [cost_series, turnover_replicate 2 1 (by norm_num)]
    norm_num [cost_bps]
  · norm_num

/-- Claim C7 (amended): a constant all-zero signal incurs zero transaction
cost in every period; a constant nonzero signal is charged exactly one entry
cost `|c| * (fee_bps + slip_bps)/10000` in period 0 and zero in every later
period. -/
theorem const_signal_cost (n : Nat) (c : Int) (fee slip : ℚ) (hn : 1 ≤ n) :
    cost_series (List.replicate n c) fee slip =
      ((|c| : ℤ) : ℚ) * cost_bps fee slip :: List.replicate (n - 1) 0
    ∧ (c = 0 → (cost_series (List.replicate n c) fee slip).sum = 0) := by
  have hcs : cost_series (List.replicate n c) fee slip =
      ((|c| : ℤ) : ℚ) * cost_bps fee slip :: List.replicate (n - 1) 0 := by
    rw [cost_series, turnover_replicate n c hn]
    rw [List.map_cons, List.map_replicate, zero_mul]
  refine ⟨hcs, fun hc => ?_⟩
  subst hc
  rw [hcs]
  simp

/-- Witness for C7 at `n = 2`, `c = 0`: the flat run's total cost is zero. -/
theorem const_signal_cost_witness :
    1 ≤ 2 ∧ (cost_series (List.replicate 2 0) 5 2).sum = 0 :=
  ⟨by norm_num, (const_signal_cost 2 0 5 2 (by norm_num)).2 rfl⟩

/-!
### Claims C1 and C3: the feature/label builder
-/

lemma closes_getElem_eq {c1 c2 : List Candle} {i : Nat} (h : c1[i]? = c2[i]?) :
    (closes c1)[i]? = (closes c2)[i]? := by
  unfold closes
  rw [List.getElem?_map, List.getElem?_map, h]

lemma closes_getD_eq {c1 c2 : List Candle} {i : Nat} (h : c1[i]? = c2[i]?) :
    (closes c1).getD i 0 = (closes c2).getD i 0 := by
  rw [List.getD_eq_getElem?_getD, List.getD_eq_getElem?_getD, closes_getElem_eq h]

/-- Claim C1 (no-look-ahead): if two candle series agree on every row up to
and including `t + h`, then `build_from_candles` assigns row `t` the same
label in both (present with the same Boolean value, or absent in both). -/
theorem label_no_lookahead (c1 c2 : List Candle) (h t : Nat) (b : Bool) (hh : 1 ≤ h)
    (hagree : ∀ i, i ≤ t + h → c1[i]? = c2[i]?) :
    ((t, b) ∈ (build_from_candles c1 h).2 ↔ (t, b) ∈ (build_from_candles c2 h).2) := by
  have hlen : t + h < c1.length ↔ t + h < c2.length := by
    rw [← isSome_getElem_iff c1 (t + h), ← isSome_getElem_iff c2 (t + h),
      hagree (t + h) le_rfl]
  rw [mem_build_labels_iff, mem_build_labels_iff]
  by_cases hth : t + h < c1.length
  · have hth2 : t + h < c2.length := hlen.mp hth
    have ht1 : t < (closes c1).length := by rw [length_closes]; omega
    have ht2 : t < (closes c2).length := by rw [length_closes]; omega
    have hval : (y_cls (closes c1) h).getD t false = (y_cls (closes c2) h).getD t false := by
      rw [y_cls_getD _ _ _ ht1, y_cls_getD _ _ _ ht2,
        future_ret_getD _ _ _ ht1, future_ret_getD _ _ _ ht2,
        closes_getElem_eq (hagree (t + h) le_rfl),
        closes_getD_eq (hagree t (Nat.le_add_right t h))]
    rw [hval]
    simp [hth, hth2]
  · have hth2 : ¬ t + h < c2.length := fun hc => hth (hlen.mpr hc)
    simp [hth, hth2]

/-- Witness for C1: two two-candle series agreeing up to row `t + h = 1`
(and differing in length beyond it) carry the label `true` at row `0`. -/
theorem label_no_lookahead_witness :
    1 ≤ 1 ∧ (∀ i, i ≤ 0 + 1 →
        ([⟨0, 1, 1, 1, 1, 1⟩, ⟨1, 1, 1, 1, 2, 1⟩] : List Candle)[i]? =
          ([⟨0, 1, 1, 1, 1, 1⟩, ⟨1, 1, 1, 1, 2, 1⟩, ⟨2, 1, 1, 1, 3, 1⟩] : List Candle)[i]?) ∧
      ((0, true) ∈ (build_from_candles [⟨0, 1, 1, 1, 1, 1⟩, ⟨1, 1, 1, 1, 2, 1⟩] 1).2 ↔
        (0, true) ∈
          (build_from_candles [⟨0, 1, 1, 1, 1, 1⟩, ⟨1, 1, 1, 1, 2, 1⟩, ⟨2, 1, 1, 1, 3, 1⟩] 1).2) :=
  ⟨le_rfl, by decide,
    label_no_lookahead _ _ 1 0 true le_rfl (by decide)⟩

/-- Claim C3: the feature matrix and the label series always have the same
length and carry the same index, and that index is exactly the set of rows
whose forward close at offset `h` exists — the first `length - h` rows. -/
theorem build_alignment (candles : List Candle) (h : Nat) (hh : 1 ≤ h) :
    (build_from_candles candles h).1.length = (build_from_candles candles h).2.length
    ∧ (build_from_candles candles h).1.map Prod.fst
        = (build_from_candles candles h).2.map Prod.fst
    ∧ (build_from_candles candles h).1.map Prod.fst = List.range (candles.length - h) := by
  simp [build_from_candles, valid_idx_eq_range, length_closes, List.map_map, Function.comp]
  exact List.map_id'' (fun x => rfl) _

/-- Witness for C3 at a 5-candle series with horizon 2: three rows survive. -/
theorem build_alignment_witness :
    1 ≤ 2 ∧
      ((build_from_candles [⟨0, 1, 1, 1, 1, 1⟩, ⟨1, 1, 1, 1, 2, 1⟩, ⟨2, 1, 1, 1, 3, 1⟩,
          ⟨3, 1, 1, 1, 4, 1⟩, ⟨4, 1, 1, 1, 5, 1⟩] 2).1.length =
        (build_from_candles [⟨0, 1, 1, 1, 1, 1⟩, ⟨1, 1, 1, 1, 2, 1⟩, ⟨2, 1, 1, 1, 3, 1⟩,
          ⟨3, 1, 1, 1, 4, 1⟩, ⟨4, 1, 1, 1, 5, 1⟩] 2).2.length
      ∧ (build_from_candles [⟨0, 1, 1, 1, 1, 1⟩, ⟨1, 1, 1, 1, 2, 1⟩, ⟨2, 1, 1, 1, 3, 1⟩,
          ⟨3, 1, 1, 1, 4, 1⟩, ⟨4, 1, 1, 1, 5, 1⟩] 2).1.map Prod.fst =
        (build_from_candles [⟨0, 1, 1, 1, 1, 1⟩, ⟨1, 1, 1, 1, 2, 1⟩, ⟨2, 1, 1, 1, 3, 1⟩,
          ⟨3, 1, 1, 1, 4, 1⟩, ⟨4, 1, 1, 1, 5, 1⟩] 2).2.map Prod.fst
      ∧ (build_from_candles [⟨0, 1, 1, 1, 1, 1⟩, ⟨1, 1, 1, 1, 2, 1⟩, ⟨2, 1, 1, 1, 3, 1⟩,
          ⟨3, 1, 1, 1, 4, 1⟩, ⟨4, 1, 1, 1, 5, 1⟩] 2).1.map Prod.fst =
        List.range (5 - 2)) :=
  ⟨by norm_num,
    build_alignment [⟨0, 1, 1, 1, 1, 1⟩, ⟨1, 1, 1, 1, 2, 1⟩, ⟨2, 1, 1, 1, 3, 1⟩,
      ⟨3, 1, 1, 1, 4, 1⟩, ⟨4, 1, 1, 1, 5, 1⟩] 2 (by norm_num)⟩

/-!
### Claim C6: horizon-to-steps conversion
-/

lemma int_fdiv_fdiv (a b c : ℤ) (ha : 0 ≤ a) (hb : 0 < b) (hc : 0 < c) :
    (a.fdiv b).fdiv c = a.fdiv (b * c) := by
  rw [Int.fdiv_eq_ediv _ hb.le, Int.fdiv_eq_ediv _ hc.le,
    Int.fdiv_eq_ediv _ (by positivity)]
  obtain ⟨m, rfl⟩ := Int.eq_ofNat_of_zero_le ha
  obtain ⟨p, rfl⟩ := Int.eq_ofNat_of_zero_le hb.le
  obtain ⟨q, rfl⟩ := Int.eq_ofNat_of_zero_le hc.le
  rw [← Int.natCast_div, ← Int.natCast_div, ← Int.natCast_mul, ← Int.natCast_div,
    Nat.div_div_eq_div_mul]

/-- Counterexample to claim C6: for the day bar `"1d"` and a 5-minute horizon
the claimed value is `max 1 ⌊5 / bar_minutes⌋ = max 1 ⌊5 / 1440⌋ = 1`, but
`_bar_to_steps` sends the `d` unit to its `else` branch and returns `5`. -/
theorem bar_to_steps_days_cex :
    bar_to_steps "1d" 5 = 5
    ∧ bar_to_minutes "1d" = 1440
    ∧ max 1 ((5 : Int).fdiv (bar_to_minutes "1d")) = 1
    ∧ bar_to_steps "1d" 5 ≠ max 1 ((5 : Int).fdiv (bar_to_minutes "1d")) := by
  exact ⟨by decide, by decide, by decide, by decide⟩

/-- Claim C6 (amended): for a minutes or hours bar whose numeric value is a
positive integer (and no surrounding whitespace), `_bar_to_steps` returns
`max 1 ⌊horizon / bar_minutes⌋`; for any other unit — days included — it
returns the fallback `max 1 horizon`; in every case the result is at least
`1` and no error is raised. -/
theorem bar_to_steps_spec (bar : String) (hm : Int) (hh : 0 ≤ hm)
    (hstrip : pyStrip bar = bar) (hv : 1 ≤ (pyInt (bar.dropRight 1)).getD 1) :
    1 ≤ bar_to_steps bar hm
    ∧ (bar.back.toLower = 'm' ∨ bar.back.toLower = 'h' →
        bar_to_steps bar hm = max 1 (hm.fdiv (bar_to_minutes bar)))
    ∧ (bar.back.toLower ≠ 'm' → bar.back.toLower ≠ 'h' →
        bar_to_steps bar hm = max 1 hm) := by
  refine ⟨?_, ?_, ?_⟩
  · simp only [bar_to_steps]
    split_ifs <;> exact le_max_left 1 _
  · rintro (hu | hu)
    · simp only [bar_to_steps, bar_to_minutes, hstrip, hu, reduceIte]
      rw [max_eq_right hv]
    · simp only [bar_to_steps, bar_to_minutes, hstrip, hu, reduceIte]
      have hne : ¬ (('h' : Char) = 'm') := by decide
      rw [if_neg hne, if_neg hne, max_eq_right hv,
        max_eq_right (by linarith : (1 : ℤ) ≤ 60 * (pyInt (bar.dropRight 1)).getD 1),
        int_fdiv_fdiv hm 60 _ hh (by norm_num) (by omega)]
  · intro h1 h2
    simp only [bar_to_steps, if_neg h1, if_neg h2]

/-- Witness for C6 at the bar `"5m"` and horizon 13 minutes: `⌊13/5⌋ = 2`. -/
theorem bar_to_steps_spec_witness :
    (0 : ℤ) ≤ 13 ∧ pyStrip "5m" = "5m" ∧ 1 ≤ (pyInt ("5m".dropRight 1)).getD 1 ∧
      (1 ≤ bar_to_steps "5m" 13
      ∧ ("5m".back.toLower = 'm' ∨ "5m".back.toLower = 'h' →
          bar_to_steps "5m" 13 = max 1 ((13 : Int).fdiv (bar_to_minutes "5m")))
      ∧ ("5m".back.toLower ≠ 'm' → "5m".back.toLower ≠ 'h' →
          bar_to_steps "5m" 13 = max 1 (13 : Int))) :=
  ⟨by decide, by decide, by decide,
    bar_to_steps_spec "5m" 13 (by decide) (by decide) (by decide)⟩

/-!
### Claim C4: Sharpe on a constant return series
-/

lemma list_mean_replicate (n : Nat) (c : ℚ) (hn : 1 ≤ n) :
    list_mean (List.replicate n c) = c := by
  have hn0 : (n : ℚ) ≠ 0 := by exact_mod_cast Nat.one_le_iff_ne_zero.mp hn
  unfold list_mean
  rw [List.sum_replicate, List.length_replicate, nsmul_eq_mul, mul_div_cancel_left₀ c hn0]

lemma list_var_replicate (n : Nat) (c : ℚ) (hn : 1 ≤ n) :
    list_var (List.replicate n c) = 0 := by
  unfold list_var
  rw [list_mean_replicate n c hn, List.map_replicate]
  simp

/-- Counterexample to claim C4: the constant net-return series `[1, 1]` has
zero variance, so `std_r = 0 + 1e-12 > 0` takes the guarded branch and the
reported Sharpe is `(1 / 1e-12) * ann_factor ≠ 0` — a huge value, not `0`. -/
theorem sharpe_const_cex : sharpe_of (List.replicate 2 (1 : ℚ)) "1m" ≠ 0 := by
  have hm : list_mean (List.replicate 2 (1 : ℚ)) = 1 := list_mean_replicate 2 1 (by norm_num)
  have hv : list_var (List.replicate 2 (1 : ℚ)) = 0 := list_var_replicate 2 1 (by norm_num)
  have hstd : np_std (List.replicate 2 (1 : ℚ)) = 0 := by
    unfold np_std
    rw [hv]
    simp
  have hann : annualization_factor "1m" ≠ 0 := by
    have h1 : bar_to_minutes "1m" = 1 := by decide
    have hppy : periods_per_year "1m" = 525600 := by
      unfold periods_per_year
      rw [h1]
      norm_num
    unfold annualization_factor
    rw [hppy]
    rw [Real.sqrt_ne_zero']
    norm_num
  unfold sharpe_of
  rw [hstd, hm, if_pos (by unfold eps12; norm_num)]
  refine mul_ne_zero (div_ne_zero (by norm_num) ?_) hann
  unfold eps12
  norm_num

/-- Claim C4 (amended): on a constant net-return series the standard
deviation is exactly `0`, so the guarded denominator `0 + 1e-12` is strictly
positive — no divide-by-zero occurs — and the reported Sharpe is
`(c / 1e-12) * ann_factor`; it is `0` exactly in the all-zero case, not for
every constant series. -/
theorem sharpe_const_series (n : Nat) (c : ℚ) (bar : String) (hn : 1 ≤ n) :
    0 < np_std (List.replicate n c) + eps12
    ∧ sharpe_of (List.replicate n c) bar = ((c : ℚ) : ℝ) / eps12 * annualization_factor bar
    ∧ (c = 0 → sharpe_of (List.replicate n c) bar = 0) := by
  have hstd : np_std (List.replicate n c) = 0 := by
    unfold np_std
    rw [list_var_replicate n c hn]
    simp
  have hpos : (0 : ℝ) < np_std (List.replicate n c) + eps12 := by
    rw [hstd, zero_add]
    unfold eps12
    norm_num
  have hval : sharpe_of (List.replicate n c) bar
      = ((c : ℚ) : ℝ) / eps12 * annualization_factor bar := by
    unfold sharpe_of
    rw [if_pos hpos, hstd, list_mean_replicate n c hn, zero_add]
  refine ⟨hpos, hval, fun hc => ?_⟩
  subst hc
  rw [hval]
  norm_num

/-- Witness for C4 at `n = 1`, `c = 0`, bar `"1m"`. -/
theorem sharpe_const_series_witness :
    1 ≤ 1 ∧ (0 < np_std (List.replicate 1 (0 : ℚ)) + eps12
      ∧ sharpe_of (List.replicate 1 (0 : ℚ)) "1m"
          = (((0 : ℚ) : ℚ) : ℝ) / eps12 * annualization_factor "1m"
      ∧ ((0 : ℚ) = 0 → sharpe_of (List.replicate 1 (0 : ℚ)) "1m" = 0)) :=
  ⟨le_rfl, sharpe_const_series 1 0 "1m" le_rfl⟩

/-!
### Claim C8: degenerate inputs and the empty-result state
-/

lemma sig_shift_checked_eq (sig : List Int) (h : sig ≠ []) :
    sig_shift_checked sig = some (sig_shift sig) := by
  cases sig with
  | nil => exact absurd rfl h
  | cons a l => rfl

/-- The default CLI configuration of `ai/backtest.py`. -/
def defaultBacktestConfig : BacktestConfig := {}

/-- Claim C8: contrary to the claim, a degenerate input never reaches the
empty-result return.  With the empty candle series (zero feature rows, hence
zero model probabilities) the write `sig_shift[0] = 0` is out of bounds on
the size-0 signal array and the run raises — modelled as `none` — instead of
returning `{samples 0, trades 0, final_equity initial}`; the sklearn scaler,
an excluded collaborator, already faults on the 0-sample transform a few
lines earlier.  The source's own final-equity fallback
`if len(equity) else cfg.initial` anticipates exactly this case but is
unreachable. -/
theorem degenerate_backtest_faults :
    run_backtest [] [] defaultBacktestConfig = none := rfl

end NeuroZK
